import Mathlib

/-!
Verification development for the streaming TTS service (sources: main.py and
tts_engine.py). The Python code is shallowly embedded: strings become
List Char, float timing values become rationals, the external speech backend
(kokoro) and its mock audio samples become parameters, and each regular
expression substitution is embedded as a dedicated left-to-right scanner with
the exact leftmost / first-alternative / greedy semantics of Python re.sub for
the concrete patterns appearing in the code.
-/

namespace Tts

/-- Convert a Lean string literal to the List Char representation used
throughout the development. -/
def strToL (s : String) : List Char := s.data

/-- Python whitespace class for the regex token and for str.strip, restricted
to its ASCII members (space, tab, newline, carriage return, vertical tab,
form feed); all inputs of interest are ASCII. -/
def isPySpace (c : Char) : Bool :=
  c == ' ' || c == '\t' || c == '\n' || c == '\x0d' || c == '\x0b' || c == '\x0c'

/-- Python regex word character class (ASCII part): letters, digits, underscore. -/
def isWordChar (c : Char) : Bool := c.isAlpha || c.isDigit || c == '_'

/-- The character class [a-zA-Z0-9] used by several patterns in the code. -/
def isAlnum (c : Char) : Bool := c.isAlpha || c.isDigit

/-- Python str.strip: remove leading and trailing whitespace. -/
def pyStrip (l : List Char) : List Char :=
  ((l.dropWhile isPySpace).reverse.dropWhile isPySpace).reverse

/-- Embeds re.sub of a whitespace run by a single space: each maximal run of
whitespace characters becomes one space (applied to stripped text in the code). -/
def collapseWs : List Char → List Char
  | [] => []
  | [c] => [if isPySpace c then ' ' else c]
  | c :: d :: rest =>
    if isPySpace c && isPySpace d then collapseWs (d :: rest)
    else (if isPySpace c then ' ' else c) :: collapseWs (d :: rest)

/-- Case-sensitive literal match at the head of the text. -/
def litAtHead : List Char → List Char → Bool
  | [], _ => true
  | _ :: _, [] => false
  | p :: ps, c :: cs => p == c && litAtHead ps cs

/-- Case-insensitive literal match at the head (the literal is lowercase). -/
def lowerAtHead : List Char → List Char → Bool
  | [], _ => true
  | _ :: _, [] => false
  | p :: ps, c :: cs => p == c.toLower && lowerAtHead ps cs

/-- Consume an exact literal, returning the remainder. -/
def dropLit : List Char → List Char → Option (List Char)
  | [], l => some l
  | _ :: _, [] => none
  | p :: ps, c :: cs => if p == c then dropLit ps cs else none

/-- Embeds Python str.replace(pat, rep): leftmost, non-overlapping, the
replacement text is not rescanned.  The fuel argument is the length of the
original list; every step consumes at least one input character. -/
def replaceFrom (pat rep : List Char) : Nat → List Char → List Char
  | 0, l => l
  | _ + 1, [] => []
  | fuel + 1, c :: rest =>
    if litAtHead pat (c :: rest) then
      rep ++ replaceFrom pat rep fuel ((c :: rest).drop pat.length)
    else
      c :: replaceFrom pat rep fuel rest

/-- str.replace over a whole list. -/
def replaceAll (pat rep l : List Char) : List Char := replaceFrom pat rep l.length l

/-- Generic re.sub driver for patterns with no left-context dependence: at
each position, tryOne either yields (replacement, remainder past the match)
or fails and the scanner advances one character. -/
def scanRewrite (tryOne : List Char → Option (List Char × List Char)) :
    Nat → List Char → List Char
  | 0, l => l
  | _ + 1, [] => []
  | fuel + 1, c :: rest =>
    match tryOne (c :: rest) with
    | some (out, rest2) => out ++ scanRewrite tryOne fuel rest2
    | none => c :: scanRewrite tryOne fuel rest

/-- Generic re.sub driver for patterns whose match depends on the previous
character (a leading word-boundary): tryOne also returns the last character
of the matched text, which becomes the new previous character. -/
def scanRewriteWithPrev
    (tryOne : Option Char → List Char → Option (List Char × Char × List Char)) :
    Nat → Option Char → List Char → List Char
  | 0, _, l => l
  | _ + 1, _, [] => []
  | fuel + 1, prev, c :: rest =>
    match tryOne prev (c :: rest) with
    | some (out, lastc, rest2) => out ++ scanRewriteWithPrev tryOne fuel (some lastc) rest2
    | none => c :: scanRewriteWithPrev tryOne fuel (some c) rest

/-- A word boundary holds before the current position when there is no
previous character or the previous character is not a word character (all
abbreviation and hyphen patterns start with a word character). -/
def boundaryBefore : Option Char → Bool
  | none => true
  | some c => !(isWordChar c)

/-- A trailing word boundary holds when the remainder is empty or starts with
a non-word character (all uses follow a word character). -/
def boundaryAfter : List Char → Bool
  | [] => true
  | c :: _ => !(isWordChar c)

/-! ## Segmentation policy (main.py: has_true_sentence_ending, should_process_text) -/

/-- The abbreviation alternation of has_true_sentence_ending, in source order,
lowercased for the IGNORECASE match; each pattern is a leading word boundary
followed by this literal. -/
def abbrevLits : List (List Char) :=
  [strToL "mr.", strToL "mrs.", strToL "ms.", strToL "dr.", strToL "prof.",
   strToL "rev.", strToL "st.", strToL "mt.",
   strToL "jr.", strToL "sr.", strToL "ii.", strToL "iii.",
   strToL "phd.", strToL "md.", strToL "lld.", strToL "ba.", strToL "bs.",
   strToL "ma.", strToL "ms.",
   strToL "etc.", strToL "vs.", strToL "e.g.", strToL "i.e.", strToL "inc.",
   strToL "corp.", strToL "ltd.", strToL "co.", strToL "llc.",
   strToL "u.s.", strToL "u.k.", strToL "n.y.", strToL "l.a.", strToL "d.c.",
   strToL "a.m.", strToL "p.m.", strToL "a.m.", strToL "p.m.",
   strToL "in.", strToL "ft.", strToL "lb.", strToL "oz.", strToL "gal.",
   strToL "min.", strToL "sec.", strToL "max."]

/-- One attempt of the abbreviation alternation: a word boundary, then the
first literal (in source order) matching case-insensitively; every literal
ends in a period, so the last matched character is a period. -/
def tryAbbrev (prev : Option Char) (l : List Char) :
    Option (List Char × Char × List Char) :=
  if boundaryBefore prev then
    match abbrevLits.findSome?
        (fun p => if lowerAtHead p l then some p.length else none) with
    | some k => some (strToL "ABBREV", '.', l.drop k)
    | none => none
  else none

/-- re.sub(abbrev_pattern, 'ABBREV', text, flags=re.IGNORECASE). -/
def maskAbbreviations (l : List Char) : List Char :=
  scanRewriteWithPrev tryAbbrev l.length none l

/-- The sentence-ending characters checked by the code. -/
def sentence_endings : List Char := ['.', '!', '?']

/-- main.py has_true_sentence_ending: mask the abbreviations, then report
whether any of '.', '!', '?' occurs in the masked text. -/
def has_true_sentence_ending (text : List Char) : Bool :=
  sentence_endings.any (fun e => (maskAbbreviations text).elem e)

/-- main.py should_process_text, as a pure function of the session buffer:
a true sentence ending, or a stripped length above 100 characters. -/
def should_process_text (buffer : List Char) : Bool :=
  has_true_sentence_ending buffer || decide (100 < (pyStrip buffer).length)

/-! ## Notation normalizer (tts_engine.py: MathNotationProcessor) -/

/-- Pattern (\d+)/(\d+) -> "\1 over \2". -/
def tryFrac (l : List Char) : Option (List Char × List Char) :=
  let (d1, r1) := l.span (·.isDigit)
  if d1.isEmpty then none else
  match r1 with
  | '/' :: r2 =>
    let (d2, r3) := r2.span (·.isDigit)
    if d2.isEmpty then none else some (d1 ++ strToL " over " ++ d2, r3)
  | _ => none

/-- Pattern ([a-zA-Z0-9]+)\^([a-zA-Z0-9]+) -> "\1 to the power of \2". -/
def tryPow (l : List Char) : Option (List Char × List Char) :=
  let (a1, r1) := l.span isAlnum
  if a1.isEmpty then none else
  match r1 with
  | '^' :: r2 =>
    let (a2, r3) := r2.span isAlnum
    if a2.isEmpty then none else some (a1 ++ strToL " to the power of " ++ a2, r3)
  | _ => none

/-- Pattern ([a-zA-Z0-9]+)_([a-zA-Z0-9]+) -> "\1 subscript \2". -/
def trySubscr (l : List Char) : Option (List Char × List Char) :=
  let (a1, r1) := l.span isAlnum
  if a1.isEmpty then none else
  match r1 with
  | '_' :: r2 =>
    let (a2, r3) := r2.span isAlnum
    if a2.isEmpty then none else some (a1 ++ strToL " subscript " ++ a2, r3)
  | _ => none

/-- The mantissa class [0-9.] of the scientific-notation pattern. -/
def isMantChar (c : Char) : Bool := c.isDigit || c == '.'

/-- Pattern ([0-9.]+)[eE]([+-]?[0-9]+) -> "\1 times 10 to the power of \2";
the optional sign is part of group 2 and kept in the replacement. -/
def trySci (l : List Char) : Option (List Char × List Char) :=
  let (m, r1) := l.span isMantChar
  if m.isEmpty then none else
  match r1 with
  | e :: r2 =>
    if e == 'e' || e == 'E' then
      match r2 with
      | s :: r3 =>
        if s == '+' || s == '-' then
          let (d, r4) := r3.span (·.isDigit)
          if d.isEmpty then none
          else some (m ++ strToL " times 10 to the power of " ++ (s :: d), r4)
        else
          let (d, r4) := r2.span (·.isDigit)
          if d.isEmpty then none
          else some (m ++ strToL " times 10 to the power of " ++ d, r4)
      | [] => none
    else none
  | [] => none

/-- Pattern \b(\d+)\s*-\s*(\d+)\b -> "\1 minus \2". -/
def tryHyph1 (prev : Option Char) (l : List Char) :
    Option (List Char × Char × List Char) :=
  if boundaryBefore prev then
    let (d1, r1) := l.span (·.isDigit)
    if d1.isEmpty then none else
    match r1.dropWhile isPySpace with
    | '-' :: r3 =>
      let (d2, r5) := (r3.dropWhile isPySpace).span (·.isDigit)
      if d2.isEmpty then none
      else if boundaryAfter r5 then
        some (d1 ++ strToL " minus " ++ d2, d2.getLastD '0', r5)
      else none
    | _ => none
  else none

/-- Pattern \b([a-zA-Z])\s*-\s*([a-zA-Z0-9])\b -> "\1 minus \2". -/
def tryHyph2 (prev : Option Char) (l : List Char) :
    Option (List Char × Char × List Char) :=
  if boundaryBefore prev then
    match l with
    | a :: r1 =>
      if a.isAlpha then
        match r1.dropWhile isPySpace with
        | '-' :: r3 =>
          match r3.dropWhile isPySpace with
          | b :: r5 =>
            if isAlnum b && boundaryAfter r5 then
              some ([a] ++ strToL " minus " ++ [b], b, r5)
            else none
          | [] => none
        | _ => none
      else none
    | [] => none
  else none

/-- Pattern \s-\s -> " minus " (one whitespace character on each side). -/
def tryHyph3 (l : List Char) : Option (List Char × List Char) :=
  match l with
  | a :: b :: c :: rest =>
    if isPySpace a && b == '-' && isPySpace c then some (strToL " minus ", rest)
    else none
  | _ => none

/-- SYMBOL_MAP of MathNotationProcessor as an ordered association list.  The
order is Python dict insertion order; the keys RIGHT ARROW and LEFT RIGHT
ARROW occur twice in the source literal, so they keep their first position
(in the logic block) with the value of their last assignment (the arrows
block), exactly as a Python dict literal resolves duplicate keys. -/
def SYMBOL_MAP : List (String × String) :=
  [("+", " plus "),
   ("-", " minus "),
   ("×", " times "),
   ("∗", " times "),
   ("*", " times "),
   ("÷", " divided by "),
   ("/", " divided by "),
   ("=", " equals "),
   ("≠", " not equal to "),
   ("≈", " approximately equals "),
   ("≡", " identical to "),
   ("<", " less than "),
   (">", " greater than "),
   ("≤", " less than or equal to "),
   ("≥", " greater than or equal to "),
   ("<<", " much less than "),
   (">>", " much greater than "),
   ("²", " squared"),
   ("³", " cubed"),
   ("⁴", " to the fourth power"),
   ("⁵", " to the fifth power"),
   ("⁶", " to the sixth power"),
   ("⁷", " to the seventh power"),
   ("⁸", " to the eighth power"),
   ("⁹", " to the ninth power"),
   ("√", " square root of "),
   ("∛", " cube root of "),
   ("∜", " fourth root of "),
   ("α", " alpha "),
   ("β", " beta "),
   ("γ", " gamma "),
   ("δ", " delta "),
   ("ε", " epsilon "),
   ("ζ", " zeta "),
   ("η", " eta "),
   ("θ", " theta "),
   ("ι", " iota "),
   ("κ", " kappa "),
   ("λ", " lambda "),
   ("μ", " mu "),
   ("ν", " nu "),
   ("ξ", " xi "),
   ("ο", " omicron "),
   ("π", " pi "),
   ("ρ", " rho "),
   ("σ", " sigma "),
   ("τ", " tau "),
   ("υ", " upsilon "),
   ("φ", " phi "),
   ("χ", " chi "),
   ("ψ", " psi "),
   ("ω", " omega "),
   ("Α", " capital alpha "),
   ("Β", " capital beta "),
   ("Γ", " capital gamma "),
   ("Δ", " capital delta "),
   ("Ε", " capital epsilon "),
   ("Ζ", " capital zeta "),
   ("Η", " capital eta "),
   ("Θ", " capital theta "),
   ("Ι", " capital iota "),
   ("Κ", " capital kappa "),
   ("Λ", " capital lambda "),
   ("Μ", " capital mu "),
   ("Ν", " capital nu "),
   ("Ξ", " capital xi "),
   ("Ο", " capital omicron "),
   ("Π", " capital pi "),
   ("Ρ", " capital rho "),
   ("Σ", " capital sigma "),
   ("Τ", " capital tau "),
   ("Υ", " capital upsilon "),
   ("Φ", " capital phi "),
   ("Χ", " capital chi "),
   ("Ψ", " capital psi "),
   ("Ω", " capital omega "),
   ("∞", " infinity "),
   ("ℯ", " e "),
   ("ℎ", " h "),
   ("ℏ", " h bar "),
   ("ℵ", " aleph "),
   ("∈", " is in "),
   ("∉", " is not in "),
   ("⊂", " is a subset of "),
   ("⊃", " is a superset of "),
   ("⊆", " is a subset of or equal to "),
   ("⊇", " is a superset of or equal to "),
   ("∪", " union "),
   ("∩", " intersection "),
   ("∅", " empty set "),
   ("∀", " for all "),
   ("∃", " there exists "),
   ("∄", " there does not exist "),
   ("¬", " not "),
   ("∧", " and "),
   ("∨", " or "),
   ("⊕", " exclusive or "),
   ("→", " right arrow "),
   ("↔", " left right arrow "),
   ("∫", " integral "),
   ("∬", " double integral "),
   ("∭", " triple integral "),
   ("∮", " contour integral "),
   ("∂", " partial derivative "),
   ("∇", " nabla "),
   ("∆", " delta "),
   ("∑", " sum "),
   ("∏", " product "),
   ("∐", " coproduct "),
   ("lim", " limit "),
   ("←", " left arrow "),
   ("↑", " up arrow "),
   ("↓", " down arrow "),
   ("↕", " up down arrow "),
   ("⇐", " left double arrow "),
   ("⇒", " right double arrow "),
   ("⇑", " up double arrow "),
   ("⇓", " down double arrow "),
   ("⇔", " left right double arrow "),
   ("°", " degrees "),
   ("′", " prime "),
   ("″", " double prime "),
   ("‴", " triple prime "),
   ("∝", " proportional to "),
   ("∟", " right angle "),
   ("∠", " angle "),
   ("∥", " parallel to "),
   ("⊥", " perpendicular to "),
   ("±", " plus or minus "),
   ("∓", " minus or plus "),
   ("∴", " therefore "),
   ("∵", " because "),
   ("∷", " as "),
   ("∶", " ratio "),
   ("%", " percent "),
   ("‰", " permille ")]

/-- The loop over symbol_map_no_hyphen: every entry except the hyphen is
applied as a plain str.replace, in table order, each pass operating on the
previous pass's output. -/
def applySymbols (l : List Char) : List Char :=
  (SYMBOL_MAP.filter (fun p => p.fst != "-")).foldl
    (fun acc p => replaceAll (strToL p.fst) (strToL p.snd) acc) l

/-- The hyphen block of process_mathematical_text: the three re.sub passes in
source order (digit-digit, single letter-alnum, space-hyphen-space). -/
def hyphenSteps (l : List Char) : List Char :=
  let t1 := scanRewriteWithPrev tryHyph1 l.length none l
  let t2 := scanRewriteWithPrev tryHyph2 t1.length none t1
  scanRewrite tryHyph3 t2.length t2

/-- MathNotationProcessor.process_mathematical_text: the ordered rewrite
pipeline of the source (fractions, carets, underscores, bracket spelling,
scientific notation, hyphen disambiguation, symbol table, whitespace
cleanup). -/
def process_mathematical_text (l : List Char) : List Char :=
  let t1 := scanRewrite tryFrac l.length l
  let t2 := scanRewrite tryPow t1.length t1
  let t3 := scanRewrite trySubscr t2.length t2
  let t4 := replaceAll (strToL "(") (strToL " open parenthesis ") t3
  let t5 := replaceAll (strToL ")") (strToL " close parenthesis ") t4
  let t6 := replaceAll (strToL "[") (strToL " open bracket ") t5
  let t7 := replaceAll (strToL "]") (strToL " close bracket ") t6
  let t8 := replaceAll (strToL "\x7b") (strToL " open brace ") t7
  let t9 := replaceAll (strToL "\x7d") (strToL " close brace ") t8
  let t10 := scanRewrite trySci t9.length t9
  let t11 := hyphenSteps t10
  let t12 := applySymbols t11
  collapseWs (pyStrip t12)

/-- The opening brace character. -/
def lb : Char := '\x7b'

/-- The closing brace character. -/
def rb : Char := '\x7d'

/-- Pattern \\frac\{([^}]+)\}\{([^}]+)\} -> "\1 over \2". -/
def tryLatexFrac (l : List Char) : Option (List Char × List Char) :=
  match dropLit (strToL "\\frac\x7b") l with
  | none => none
  | some r1 =>
    let (g1, r2) := r1.span (fun c => !(c == rb))
    if g1.isEmpty then none else
    match r2 with
    | _ :: lb2 :: r3 =>
      if lb2 == lb then
        let (g2, r4) := r3.span (fun c => !(c == rb))
        if g2.isEmpty then none else
        match r4 with
        | _ :: r5 => some (g1 ++ strToL " over " ++ g2, r5)
        | [] => none
      else none
    | _ => none

/-- Pattern \\sqrt\{([^}]+)\} -> "square root of \1". -/
def tryLatexSqrt (l : List Char) : Option (List Char × List Char) :=
  match dropLit (strToL "\\sqrt\x7b") l with
  | none => none
  | some r1 =>
    let (g1, r2) := r1.span (fun c => !(c == rb))
    if g1.isEmpty then none else
    match r2 with
    | _ :: r3 => some (strToL "square root of " ++ g1, r3)
    | [] => none

/-- Pattern \\sqrt\[([^]]+)\]\{([^}]+)\} -> "\1th root of \2". -/
def tryLatexSqrtN (l : List Char) : Option (List Char × List Char) :=
  match dropLit (strToL "\\sqrt[") l with
  | none => none
  | some r1 =>
    let (g1, r2) := r1.span (fun c => !(c == ']'))
    if g1.isEmpty then none else
    match r2 with
    | _ :: lb2 :: r3 =>
      if lb2 == lb then
        let (g2, r4) := r3.span (fun c => !(c == rb))
        if g2.isEmpty then none else
        match r4 with
        | _ :: r5 => some (g1 ++ strToL "th root of " ++ g2, r5)
        | [] => none
      else none
    | _ => none

/-- Pattern ([a-zA-Z0-9]+)\^\{([^}]+)\} -> "\1 to the power of \2". -/
def tryLatexPow (l : List Char) : Option (List Char × List Char) :=
  let (a1, r1) := l.span isAlnum
  if a1.isEmpty then none else
  match r1 with
  | caret :: lb2 :: r2 =>
    if caret == '^' && lb2 == lb then
      let (g1, r3) := r2.span (fun c => !(c == rb))
      if g1.isEmpty then none else
      match r3 with
      | _ :: r4 => some (a1 ++ strToL " to the power of " ++ g1, r4)
      | [] => none
    else none
  | _ => none

/-- Pattern ([a-zA-Z0-9]+)_\{([^}]+)\} -> "\1 subscript \2". -/
def tryLatexSubscr (l : List Char) : Option (List Char × List Char) :=
  let (a1, r1) := l.span isAlnum
  if a1.isEmpty then none else
  match r1 with
  | us :: lb2 :: r2 =>
    if us == '_' && lb2 == lb then
      let (g1, r3) := r2.span (fun c => !(c == rb))
      if g1.isEmpty then none else
      match r3 with
      | _ :: r4 => some (a1 ++ strToL " subscript " ++ g1, r4)
      | [] => none
    else none
  | _ => none

/-- Helper for the \\sum and \\int patterns: after the leading literal, parse
\{g1\}\^\{g2\} and build the replacement from the given head and middle text. -/
def tryBraceFromTo (lead : List Char) (headTxt midTxt : List Char)
    (l : List Char) : Option (List Char × List Char) :=
  match dropLit lead l with
  | none => none
  | some r1 =>
    let (g1, r2) := r1.span (fun c => !(c == rb))
    if g1.isEmpty then none else
    match r2 with
    | _ :: caret :: lb2 :: r3 =>
      if caret == '^' && lb2 == lb then
        let (g2, r4) := r3.span (fun c => !(c == rb))
        if g2.isEmpty then none else
        match r4 with
        | _ :: r5 => some (headTxt ++ g1 ++ midTxt ++ g2, r5)
        | [] => none
      else none
    | _ => none

/-- Pattern \\sum_\{([^}]+)\}\^\{([^}]+)\} -> "sum from \1 to \2". -/
def tryLatexSum (l : List Char) : Option (List Char × List Char) :=
  tryBraceFromTo (strToL "\\sum_\x7b") (strToL "sum from ") (strToL " to ") l

/-- Pattern \\int_\{([^}]+)\}\^\{([^}]+)\} -> "integral from \1 to \2". -/
def tryLatexIntg (l : List Char) : Option (List Char × List Char) :=
  tryBraceFromTo (strToL "\\int_\x7b") (strToL "integral from ") (strToL " to ") l

/-- Split a brace-free run at the last occurrence of the literal "\to",
returning the part before the literal and the part after it; this realises
the greedy backtracking of ([^}]+)\\to inside the \\lim pattern. -/
def splitLastTo : List Char → Option (List Char × List Char)
  | [] => none
  | c :: rest =>
    match splitLastTo rest with
    | some (pre, post) => some (c :: pre, post)
    | none =>
      if litAtHead (strToL "\\to") (c :: rest) then some ([], (c :: rest).drop 3)
      else none

/-- Pattern \\lim_\{([^}]+)\\to\s*([^}]+)\} -> "limit as \1 approaches \2".
Group 1 is the greedy longest run before the last "\to"; group 2 is the
remainder after the optional whitespace, falling back to the whitespace
itself when nothing else is left before the closing brace. -/
def tryLatexLim (l : List Char) : Option (List Char × List Char) :=
  match dropLit (strToL "\\lim_\x7b") l with
  | none => none
  | some r1 =>
    let (content, r2) := r1.span (fun c => !(c == rb))
    match r2 with
    | _ :: r3 =>
      match splitLastTo content with
      | none => none
      | some (g1, post) =>
        if g1.isEmpty then none else
        let sp := post.takeWhile isPySpace
        let tl := post.dropWhile isPySpace
        if !tl.isEmpty then
          some (strToL "limit as " ++ g1 ++ strToL " approaches " ++ tl, r3)
        else if !sp.isEmpty then
          some (strToL "limit as " ++ g1 ++ strToL " approaches " ++ sp, r3)
        else none
    | [] => none

/-- Pattern \\[a-zA-Z]+ -> "" (removal of leftover backslash commands). -/
def tryCmdRemove (l : List Char) : Option (List Char × List Char) :=
  match l with
  | c :: rest =>
    if c == '\\' then
      let ls := rest.takeWhile (·.isAlpha)
      if ls.isEmpty then none else some ([], rest.drop ls.length)
    else none
  | [] => none

/-- MathNotationProcessor.process_latex_expressions: the ordered LaTeX
rewrite passes of the source, followed by command removal and whitespace
cleanup. -/
def process_latex_expressions (l : List Char) : List Char :=
  let t1 := scanRewrite tryLatexFrac l.length l
  let t2 := scanRewrite tryLatexSqrt t1.length t1
  let t3 := scanRewrite tryLatexSqrtN t2.length t2
  let t4 := scanRewrite tryLatexPow t3.length t3
  let t5 := scanRewrite tryLatexSubscr t4.length t4
  let t6 := scanRewrite tryLatexSum t5.length t5
  let t7 := scanRewrite tryLatexIntg t6.length t6
  let t8 := scanRewrite tryLatexLim t7.length t7
  let t9 := scanRewrite tryCmdRemove t8.length t8
  collapseWs (pyStrip t9)

/-- TTSEngine._clean_text: mathematical pass, then LaTeX pass, then a final
whitespace strip and collapse. -/
def clean_text (l : List Char) : List Char :=
  collapseWs (pyStrip (process_latex_expressions (process_mathematical_text l)))

/-! ## Session registry (tts_engine.py: ConnectionManager) -/

/-- The per-session record of ConnectionManager.session_data.  The wall-clock
creation timestamp of the source is irrelevant to every claim and is omitted. -/
structure SessionData where
  text_buffer : List Char
  full_text : List Char
  is_active : Bool
deriving DecidableEq

/-- The registry maps session identifiers to their records; embedded as an
association list in insertion order, matching a Python dict. -/
abbrev Registry := List (String × SessionData)

/-- Dictionary lookup session_data.get(session_id). -/
def lookupSession : Registry → String → Option SessionData
  | [], _ => none
  | (k, v) :: rest, sid => if k = sid then some v else lookupSession rest sid

/-- Dictionary assignment session_data[session_id] = record: overwrite the
existing entry in place, or append a new one. -/
def setSession : Registry → String → SessionData → Registry
  | [], sid, d => [(sid, d)]
  | (k, v) :: rest, sid, d =>
    if k = sid then (k, d) :: rest else (k, v) :: setSession rest sid d

/-- Update an entry if present; no-op otherwise (the pattern
`if session_id in self.session_data:` used by every mutator). -/
def updateSession : Registry → String → (SessionData → SessionData) → Registry
  | [], _, _ => []
  | (k, v) :: rest, sid, f =>
    if k = sid then (k, f v) :: rest else (k, v) :: updateSession rest sid f

/-- Dictionary deletion del session_data[session_id] (no-op if absent). -/
def removeSession : Registry → String → Registry
  | [], _ => []
  | (k, v) :: rest, sid =>
    if k = sid then rest else (k, v) :: removeSession rest sid

/-- ConnectionManager.connect: unconditionally installs a fresh record with
empty buffer, empty transcript and the active flag set. -/
def connect (reg : Registry) (sid : String) : Registry :=
  setSession reg sid { text_buffer := [], full_text := [], is_active := true }

/-- ConnectionManager.disconnect. -/
def disconnect (reg : Registry) (sid : String) : Registry := removeSession reg sid

/-- ConnectionManager.initialize_session: clear buffer and transcript, set
active; no-op when the session is absent. -/
def initialize_session (reg : Registry) (sid : String) : Registry :=
  updateSession reg sid
    (fun d => { d with text_buffer := [], full_text := [], is_active := true })

/-- ConnectionManager.add_text_chunk: append the chunk to both the pending
buffer and the cumulative transcript; no-op when the session is absent. -/
def add_text_chunk (reg : Registry) (sid : String) (t : List Char) : Registry :=
  updateSession reg sid
    (fun d => { d with text_buffer := d.text_buffer ++ t,
                       full_text := d.full_text ++ t })

/-- ConnectionManager.get_text_buffer (empty string when absent). -/
def get_text_buffer (reg : Registry) (sid : String) : List Char :=
  ((lookupSession reg sid).map SessionData.text_buffer).getD []

/-- ConnectionManager.clear_text_buffer. -/
def clear_text_buffer (reg : Registry) (sid : String) : Registry :=
  updateSession reg sid (fun d => { d with text_buffer := [] })

/-! ## Alignment synthesizer (tts_engine.py: TTSEngine alignment methods) -/

/-- One backend phoneme timing record (label, start_ms, end_ms); float times
are embedded as rationals. -/
structure Timing where
  label : List Char
  start_ms : ℚ
  end_ms : ℚ

/-- Total audio duration: the end time of the last timing record, 0 for the
empty sequence (`phoneme_timings[-1][2] if phoneme_timings else 0`). -/
def totalDuration (timings : List Timing) : ℚ :=
  ((timings.getLast?).map Timing.end_ms).getD 0

/-- One character alignment record (the code stores only start and duration). -/
structure CharAlign where
  start_ms : ℚ
  duration_ms : ℚ

/-- One word alignment record. -/
structure WordAlign where
  word : List Char
  start_ms : ℚ
  duration_ms : ℚ

/-- re.findall(r'\S+', text): the maximal runs of non-whitespace characters. -/
def splitWordsAux : List Char → List Char → List (List Char)
  | [], acc => if acc.isEmpty then [] else [acc.reverse]
  | c :: rest, acc =>
    if isPySpace c then
      if acc.isEmpty then splitWordsAux rest [] else acc.reverse :: splitWordsAux rest []
    else splitWordsAux rest (c :: acc)

/-- Split a text into whitespace-delimited tokens, punctuation attached. -/
def splitWords (l : List Char) : List (List Char) := splitWordsAux l []

/-- The accumulation loop of _generate_word_alignment: each word gets a
duration proportional to its character count, and start times accumulate. -/
def wordAlignGo (total tc : ℚ) : ℚ → List (List Char) → List WordAlign
  | _, [] => []
  | cur, w :: ws =>
    let d := if 0 < tc then ((w.length : ℚ) / tc) * total else 0
    { word := w, start_ms := cur, duration_ms := d } :: wordAlignGo total tc (cur + d) ws

/-- TTSEngine._generate_word_alignment: empty result when there are no
timings or no words; otherwise proportional distribution of the total
duration over the words by character count. -/
def generate_word_alignment (text : List Char) (timings : List Timing) :
    List WordAlign :=
  if timings.isEmpty || (splitWords text).isEmpty then []
  else wordAlignGo (totalDuration timings)
    (((((splitWords text).map List.length).sum : ℕ)) : ℚ) 0 (splitWords text)

/-- TTSEngine._generate_character_alignment: a fixed 100 ms per character
when the timing sequence is empty, otherwise an even split of the total
duration over all characters. -/
def generate_character_alignment (text : List Char) (timings : List Timing) :
    List CharAlign :=
  if timings.isEmpty then
    (List.range text.length).map
      (fun i : ℕ => { start_ms := (i : ℚ) * 100, duration_ms := 100 })
  else
    (List.range text.length).map
      (fun i : ℕ =>
        { start_ms := (i : ℚ) *
            (if 0 < text.length then totalDuration timings / (text.length : ℚ) else 0),
          duration_ms :=
            if 0 < text.length then totalDuration timings / (text.length : ℚ) else 0 })

/-! ## Audio encoder quantization (tts_engine.py: TTSEngine._audio_to_base64) -/

/-- Truncation toward zero, the rounding of Python int() and of a C float to
integer cast. -/
def truncQ (x : ℚ) : Int := if 0 ≤ x then ⌊x⌋ else -⌊-x⌋

/-- Reduction of an integer into the signed 16-bit range by wrapping modulo
2^16, the effect of numpy .astype(np.int16) on an out-of-range value. -/
def wrap16 (v : Int) : Int :=
  if 32768 ≤ v % 65536 then v % 65536 - 65536 else v % 65536

/-- The quantization (audio_data * 32767).astype(np.int16) applied to one
sample: scale by 32767, truncate, wrap to 16 bits.  The source performs no
clipping before this cast. -/
def quantSample (x : ℚ) : Int := wrap16 (truncQ (x * 32767))

/-- The PCM payload of _audio_to_base64 as the list of quantized samples; the
scipy resampling step and the base64 transport encoding are external library
calls outside the embedded core. -/
def audioToPcm16 (samples : List ℚ) : List Int := samples.map quantSample

/-- Modelled from the spec: the quantization the specification describes,
which clips each sample to the unit range before scaling ("clip to the valid
sample range before scaling").  Used only to compare the source behaviour
against the spec sentence. -/
def specClipQuant (x : ℚ) : Int := truncQ ((max (-1) (min x 1)) * 32767)

/-! ## TTS engine synthesis call (tts_engine.py: TTSEngine) -/

/-- The mock phoneme timings of _generate_mock_audio_with_timings: 80 ms per
character (len*0.08 seconds spread over len characters), one record per
alphabetic character at its character index. -/
def mock_phoneme_timings (text : List Char) : List Timing :=
  text.enum.filterMap
    (fun p =>
      if p.snd.isAlpha then
        some { label := '/' :: p.snd.toLower :: ['/'],
               start_ms := (p.fst : ℚ) * 80,
               end_ms := ((p.fst : ℚ) + 1) * 80 }
      else none)

/-- _generate_audio_with_phoneme_timings: use the kokoro backend result when
the call succeeds; on any backend exception fall back to the deterministic
mock (whose sine-wave samples are an uninterpreted parameter mockAudio). -/
def generate_audio_with_phoneme_timings
    (backendCall : List Char → Option (List ℚ × List Timing))
    (mockAudio : List Char → List ℚ) (text : List Char) :
    List ℚ × List Timing :=
  match backendCall text with
  | some r => r
  | none => (mockAudio text, mock_phoneme_timings text)

/-- The alignment block of the outbound payload (list(processed_text) plus
int()-truncated millisecond values). -/
structure AlignmentPayload where
  chars : List Char
  char_start_times_ms : List Int
  char_durations_ms : List Int

/-- The word_alignment block of the outbound payload. -/
structure WordAlignmentPayload where
  words : List (List Char)
  word_start_times_ms : List Int
  word_durations_ms : List Int

/-- The outbound result dict of generate_audio_with_alignment.  The
current_chunk_text key is absent until process_text_buffer adds it, hence an
Option. -/
structure TtsResult where
  audio_pcm : List Int
  original_text : List Char
  processed_text : List Char
  alignment : AlignmentPayload
  word_alignment : WordAlignmentPayload
  full_text : List Char
  current_chunk_text : Option (List Char)

/-- TTSEngine.generate_audio_with_alignment: None when the engine is not
ready or the cleaned text is whitespace-only; otherwise clean the text, get
samples and timings (with mock fallback), build both alignments and the
quantized audio, and return the result dict with full_text set to the
processed text. -/
def generate_audio_with_alignment
    (backendCall : List Char → Option (List ℚ × List Timing))
    (mockAudio : List Char → List ℚ) (ready : Bool) (text : List Char) :
    Option TtsResult :=
  if !ready then none else
  if (pyStrip (clean_text text)).isEmpty then none else
  some {
    audio_pcm := audioToPcm16
      (generate_audio_with_phoneme_timings backendCall mockAudio (clean_text text)).fst,
    original_text := text,
    processed_text := clean_text text,
    alignment := {
      chars := clean_text text,
      char_start_times_ms :=
        (generate_character_alignment (clean_text text)
          (generate_audio_with_phoneme_timings backendCall mockAudio
            (clean_text text)).snd).map (fun a => truncQ a.start_ms),
      char_durations_ms :=
        (generate_character_alignment (clean_text text)
          (generate_audio_with_phoneme_timings backendCall mockAudio
            (clean_text text)).snd).map (fun a => truncQ a.duration_ms) },
    word_alignment := {
      words :=
        (generate_word_alignment (clean_text text)
          (generate_audio_with_phoneme_timings backendCall mockAudio
            (clean_text text)).snd).map WordAlign.word,
      word_start_times_ms :=
        (generate_word_alignment (clean_text text)
          (generate_audio_with_phoneme_timings backendCall mockAudio
            (clean_text text)).snd).map (fun a => truncQ a.start_ms),
      word_durations_ms :=
        (generate_word_alignment (clean_text text)
          (generate_audio_with_phoneme_timings backendCall mockAudio
            (clean_text text)).snd).map (fun a => truncQ a.duration_ms) },
    full_text := clean_text text,
    current_chunk_text := none }

/-! ## Protocol handler (main.py: websocket_endpoint, process_text_buffer) -/

/-- Outbound messages: a success payload or an error object. -/
inductive OutMsg where
  | success (r : TtsResult)
  | error (msg : List Char)

/-- Recognise an outbound error message. -/
def isErrorMsg : OutMsg → Bool
  | .error _ => true
  | .success _ => false

/-- Parsed inbound messages of the protocol (malformed JSON never reaches
this level; the endpoint answers it directly with an error object). -/
inductive InMsg where
  | text (s : List Char)
  | flushReq
  | resetReq
  | other

/-- main.py process_text_buffer: skip a whitespace-only buffer; on a result
dict, overwrite full_text with the session transcript, add
current_chunk_text, send exactly one success message and clear the buffer;
when the engine returns None, fall through silently (the `if result:` guard)
leaving the buffer intact and sending nothing. -/
def process_text_buffer
    (backendCall : List Char → Option (List ℚ × List Timing))
    (mockAudio : List Char → List ℚ) (ready : Bool)
    (reg : Registry) (sid : String) : Registry × List OutMsg :=
  if (pyStrip (get_text_buffer reg sid)).isEmpty then (reg, [])
  else
    match generate_audio_with_alignment backendCall mockAudio ready
        (get_text_buffer reg sid) with
    | some r =>
      (clear_text_buffer reg sid,
       [OutMsg.success
         { r with
           full_text := ((lookupSession reg sid).map SessionData.full_text).getD
             (get_text_buffer reg sid),
           current_chunk_text := some r.processed_text }])
    | none => (reg, [])

/-- One step of the websocket_endpoint dispatch loop (ready engine): the init
marker resets the session, empty text runs a final pass over a non-empty
buffer, other text is appended and synthesized when the segmentation policy
fires, flush forces a pass, reset reinitializes, anything else is a no-op. -/
def handle_message
    (backendCall : List Char → Option (List ℚ × List Timing))
    (mockAudio : List Char → List ℚ)
    (reg : Registry) (sid : String) : InMsg → Registry × List OutMsg
  | .text s =>
    if s = strToL " " then (initialize_session reg sid, [])
    else if s = [] then
      if !(pyStrip (get_text_buffer reg sid)).isEmpty then
        process_text_buffer backendCall mockAudio true reg sid
      else (reg, [])
    else
      if should_process_text (get_text_buffer (add_text_chunk reg sid s) sid) then
        process_text_buffer backendCall mockAudio true (add_text_chunk reg sid s) sid
      else (add_text_chunk reg sid s, [])
  | .flushReq => process_text_buffer backendCall mockAudio true reg sid
  | .resetReq => (initialize_session reg sid, [])
  | .other => (reg, [])

/-- Process a list of inbound messages in order, concatenating the outbound
messages. -/
def run_messages
    (backendCall : List Char → Option (List ℚ × List Timing))
    (mockAudio : List Char → List ℚ)
    (reg : Registry) (sid : String) : List InMsg → Registry × List OutMsg
  | [] => (reg, [])
  | m :: ms =>
    ((run_messages backendCall mockAudio
        (handle_message backendCall mockAudio reg sid m).fst sid ms).fst,
     (handle_message backendCall mockAudio reg sid m).snd
       ++ (run_messages backendCall mockAudio
            (handle_message backendCall mockAudio reg sid m).fst sid ms).snd)

/-- Substring containment test used to state the normalizer claims. -/
def containsSeq (pat : List Char) : List Char → Bool
  | [] => pat.isEmpty
  | c :: rest => litAtHead pat (c :: rest) || containsSeq pat rest

/-- The processed_text field of an outbound message when it is a success. -/
def outProcessed : OutMsg → Option (List Char)
  | .success r => some r.processed_text
  | .error _ => none

/-- The full_text field of an outbound message when it is a success. -/
def outFull : OutMsg → Option (List Char)
  | .success r => some r.full_text
  | .error _ => none

/-! ## Helper lemmas -/

theorem lookupSession_setSession_self (reg : Registry) (sid : String) (d : SessionData) :
    lookupSession (setSession reg sid d) sid = some d := by
  induction reg with
  | nil => simp [setSession, lookupSession]
  | cons p rest ih =>
    by_cases h : p.fst = sid
    · simp [setSession, lookupSession, h]
    · simp [setSession, lookupSession, h, ih]

theorem lookupSession_updateSession (reg : Registry) (sid : String)
    (f : SessionData → SessionData) :
    lookupSession (updateSession reg sid f) sid = (lookupSession reg sid).map f := by
  induction reg with
  | nil => simp [updateSession, lookupSession]
  | cons p rest ih =>
    by_cases h : p.fst = sid
    · simp [updateSession, lookupSession, h]
    · simp [updateSession, lookupSession, h, ih]

theorem get_text_buffer_clear (reg : Registry) (sid : String) :
    get_text_buffer (clear_text_buffer reg sid) sid = [] := by
  unfold get_text_buffer clear_text_buffer
  rw [lookupSession_updateSession]
  cases lookupSession reg sid <;> simp

theorem clear_preserves_is_active (reg : Registry) (sid : String) :
    (lookupSession (clear_text_buffer reg sid) sid).map SessionData.is_active
      = (lookupSession reg sid).map SessionData.is_active := by
  unfold clear_text_buffer
  rw [lookupSession_updateSession]
  cases lookupSession reg sid <;> simp

theorem clear_preserves_full_text (reg : Registry) (sid : String) :
    (lookupSession (clear_text_buffer reg sid) sid).map SessionData.full_text
      = (lookupSession reg sid).map SessionData.full_text := by
  unfold clear_text_buffer
  rw [lookupSession_updateSession]
  cases lookupSession reg sid <;> simp

/-! ## Claim C2 -/

set_option maxRecDepth 400000 in
/-- Counterexample for C2: the full normalization pipeline applied to
"\frac{1}{2}" does not produce any text containing "1 over 2"; the claimed
example output is false on the code. -/
theorem claim_C2_counterexample :
    containsSeq (strToL "1 over 2")
      (clean_text (strToL "\\frac\x7b1\x7d\x7b2\x7d")) = false := by
  decide

set_option maxRecDepth 400000 in
/-- C2 (amended): the bracket-spelling step of the mathematical pass consumes
the braces of "\frac{1}{2}" before the LaTeX pass runs, so the pipeline
yields "open brace 1 close brace open brace 2 close brace" (the leftover
"\frac" command is deleted); the LaTeX pass applied directly to the raw
input does yield "1 over 2", showing that only the pipeline order breaks the
claimed example. -/
theorem claim_C2_thm :
    clean_text (strToL "\\frac\x7b1\x7d\x7b2\x7d")
        = strToL "open brace 1 close brace open brace 2 close brace"
    ∧ process_latex_expressions (strToL "\\frac\x7b1\x7d\x7b2\x7d")
        = strToL "1 over 2" := by
  constructor
  · decide
  · decide

/-! ## Claim C5 -/

/-- Counterexample for C5: with session "s" already present (holding buffer
and transcript "hi"), a second connect does not fail; it silently replaces
the record with a fresh empty one. -/
theorem claim_C5_counterexample :
    lookupSession (add_text_chunk (connect [] "s") "s" (strToL "hi")) "s"
        = some { text_buffer := strToL "hi", full_text := strToL "hi", is_active := true }
    ∧ lookupSession (connect (add_text_chunk (connect [] "s") "s" (strToL "hi")) "s") "s"
        = some { text_buffer := [], full_text := [], is_active := true } := by
  constructor
  · decide
  · decide

/-- C5 (amended): connect(id) installs a session record with empty buffer,
empty transcript and active = true unconditionally — when a record for id is
already present it is silently overwritten rather than reported as an
error. -/
theorem claim_C5_thm (reg : Registry) (sid : String) :
    lookupSession (connect reg sid) sid
      = some { text_buffer := [], full_text := [], is_active := true } :=
  lookupSession_setSession_self reg sid _

/-! ## Claim C8 -/

set_option maxRecDepth 400000 in
/-- C8: hyphen disambiguation converts "5 - 3 = 2" to "5 minus 3 equals 2"
through the full normalizer, leaves the compound-word hyphen of "well-known"
unchanged through the full normalizer, and the three-pass hyphen block itself
does not touch "well-known". -/
theorem claim_C8_thm :
    clean_text (strToL "5 - 3 = 2") = strToL "5 minus 3 equals 2"
    ∧ clean_text (strToL "well-known") = strToL "well-known"
    ∧ hyphenSteps (strToL "well-known") = strToL "well-known" := by
  refine ⟨?_, ?_, ?_⟩
  · decide
  · decide
  · decide

/-! ## Claim C10 -/

set_option maxRecDepth 400000 in
/-- C10: the symbol table contains the three-letter entry "lim" mapped to
" limit ", the substitution loop is plain substring replacement, and the
ordinary English word "climb" is therefore normalized to "c limit b". -/
theorem claim_C10_thm :
    ("lim", " limit ") ∈ SYMBOL_MAP
    ∧ clean_text (strToL "climb") = strToL "c limit b" := by
  constructor
  · decide
  · decide

/-! ## Claim C6 -/

/-- Counterexample for C6: the sample 2.0 (outside unit amplitude) is emitted
as -2 by the code's quantization — it wraps around the 16-bit range — while
the clip-then-scale quantization stated by the claim yields 32767. -/
theorem claim_C6_counterexample :
    quantSample 2 = -2 ∧ specClipQuant 2 = 32767
      ∧ quantSample 2 ≠ specClipQuant 2 := by
  refine ⟨?_, ?_, ?_⟩ <;> norm_num [quantSample, specClipQuant, truncQ, wrap16]

theorem truncQ_bounds {x : ℚ} {b : ℤ} (hb : 0 ≤ b) (h1 : -(b : ℚ) ≤ x) (h2 : x ≤ (b : ℚ)) :
    -b ≤ truncQ x ∧ truncQ x ≤ b := by
  unfold truncQ
  split
  · rename_i hx
    have hl : 0 ≤ ⌊x⌋ := Int.floor_nonneg.mpr hx
    have hu : ⌊x⌋ ≤ b := by exact_mod_cast le_trans (Int.floor_le x) h2
    omega
  · rename_i hx
    push_neg at hx
    have hx2 : (0 : ℚ) ≤ -x := by linarith
    have hl : 0 ≤ ⌊-x⌋ := Int.floor_nonneg.mpr hx2
    have hu : ⌊-x⌋ ≤ b := by
      have hxb : -x ≤ (b : ℚ) := by linarith
      exact_mod_cast le_trans (Int.floor_le (-x)) hxb
    omega

theorem wrap16_eq_self {v : ℤ} (h1 : -32768 ≤ v) (h2 : v ≤ 32767) : wrap16 v = v := by
  unfold wrap16
  split <;> omega

/-- C6 (amended): the quantization scales and casts with no clipping; for
every sample inside the unit range it agrees with the clip-then-scale
quantization of the claim, but an out-of-range sample wraps around the
16-bit range (2.0 is emitted as -2, not 32767). -/
theorem claim_C6_thm :
    (∀ x : ℚ, -1 ≤ x → x ≤ 1 → quantSample x = specClipQuant x)
    ∧ quantSample 2 = -2 := by
  constructor
  · intro x h1 h2
    have hmin : min x 1 = x := min_eq_left h2
    have hmax : max (-1 : ℚ) x = x := max_eq_right h1
    unfold quantSample specClipQuant
    rw [hmin, hmax]
    have hb : -(32767 : ℚ) ≤ x * 32767 ∧ x * 32767 ≤ (32767 : ℚ) := by
      constructor <;> nlinarith
    have := truncQ_bounds (x := x * 32767) (b := 32767) (by norm_num)
      (by exact_mod_cast hb.1) (by exact_mod_cast hb.2)
    exact wrap16_eq_self (by omega) (by omega)
  · norm_num [quantSample, truncQ, wrap16]

/-- Witness for C6: the in-range sample 1/2 satisfies the hypotheses and the
code quantization agrees with the clip-then-scale quantization there. -/
theorem claim_C6_witness :
    (-1 : ℚ) ≤ 1/2 ∧ (1/2 : ℚ) ≤ 1 ∧ quantSample (1/2) = specClipQuant (1/2) :=
  ⟨by norm_num, by norm_num, claim_C6_thm.1 (1/2) (by norm_num) (by norm_num)⟩

/-! ## Claim C3 -/

theorem has_true_sentence_ending_iff (b : List Char) :
    has_true_sentence_ending b = true
      ↔ (∃ c ∈ maskAbbreviations b, c = '.' ∨ c = '!' ∨ c = '?') := by
  unfold has_true_sentence_ending
  rw [List.any_eq_true]
  constructor
  · rintro ⟨e, he, hm⟩
    rw [List.elem_iff] at hm
    refine ⟨e, hm, ?_⟩
    simpa [sentence_endings] using he
  · rintro ⟨c, hc, h⟩
    refine ⟨c, ?_, ?_⟩
    · simpa [sentence_endings] using h
    · rwa [List.elem_iff]

set_option maxRecDepth 400000 in
/-- C3: should_process_text returns true exactly when a '.', '!' or '?'
survives the abbreviation masking or the whitespace-stripped buffer exceeds
100 characters; in particular it is false for "Dr. Smith arrived" and true
for "Hello Dr. Smith.". -/
theorem claim_C3_thm :
    (∀ b : List Char,
        should_process_text b = true ↔
          ((∃ c ∈ maskAbbreviations b, c = '.' ∨ c = '!' ∨ c = '?')
            ∨ 100 < (pyStrip b).length))
    ∧ should_process_text (strToL "Dr. Smith arrived") = false
    ∧ should_process_text (strToL "Hello Dr. Smith.") = true := by
  refine ⟨?_, by decide, by decide⟩
  intro b
  unfold should_process_text
  rw [Bool.or_eq_true, decide_eq_true_eq]
  exact or_congr (has_true_sentence_ending_iff b) Iff.rfl

/-! ## Claim C7 -/

theorem wordAlignGo_total_zero (tc : ℚ) (ws : List (List Char)) :
    wordAlignGo 0 tc 0 ws
      = ws.map (fun w => { word := w, start_ms := 0, duration_ms := 0 }) := by
  induction ws with
  | nil => rfl
  | cons w rest ih =>
    have hd : (if 0 < tc then ((w.length : ℚ) / tc) * 0 else 0) = 0 := by
      split <;> simp
    simp [wordAlignGo, hd, ih]

theorem generate_word_alignment_total_zero (text : List Char) (t : List Timing)
    (hte : t.isEmpty = false) (h0 : totalDuration t = 0) :
    generate_word_alignment text t
      = (splitWords text).map
          (fun w => { word := w, start_ms := 0, duration_ms := 0 }) := by
  simp only [generate_word_alignment, hte, h0, Bool.false_or]
  by_cases hw : (splitWords text).isEmpty = true
  · have hnil : splitWords text = [] := by
      cases hsw : splitWords text with
      | nil => rfl
      | cons a l => rw [hsw] at hw; simp at hw
    rw [if_pos hw, hnil]
    rfl
  · rw [if_neg hw]
    exact wordAlignGo_total_zero _ _

/-- Counterexample for C7: with non-empty text "hi" and an empty phoneme
timing sequence, the word alignment is empty — it does not contain one
record per whitespace-delimited token as the claim states. -/
theorem claim_C7_counterexample :
    generate_word_alignment (strToL "hi") [] = []
    ∧ (splitWords (strToL "hi")).length = 1 := by
  constructor
  · rfl
  · rfl

/-- C7 (amended): empty text yields empty alignments; non-empty text with an
empty timing sequence yields the fixed 100 ms-per-character character
alignment but an empty word alignment (not one record per token); and for a
non-empty timing sequence of total duration 0, every record of both kinds has
start 0 and duration 0, with one word record per whitespace-delimited
token. -/
theorem claim_C7_thm :
    (∀ t : List Timing,
        generate_character_alignment [] t = [] ∧ generate_word_alignment [] t = [])
    ∧ (∀ text : List Char, ∀ a ∈ generate_character_alignment text [],
        a.duration_ms = 100)
    ∧ (∀ text : List Char, generate_word_alignment text [] = [])
    ∧ (∀ (text : List Char) (t : List Timing), t ≠ [] → totalDuration t = 0 →
        (∀ a ∈ generate_character_alignment text t,
            a.start_ms = 0 ∧ a.duration_ms = 0)
        ∧ (generate_word_alignment text t).map WordAlign.word = splitWords text
        ∧ (∀ a ∈ generate_word_alignment text t,
            a.start_ms = 0 ∧ a.duration_ms = 0)) := by
  refine ⟨?_, ?_, ?_, ?_⟩
  · intro t
    constructor
    · unfold generate_character_alignment
      split <;> simp
    · simp [generate_word_alignment, splitWords, splitWordsAux]
  · intro text a ha
    simp only [generate_character_alignment, List.isEmpty_nil, if_true,
      List.mem_map] at ha
    obtain ⟨i, _, rfl⟩ := ha
    rfl
  · intro text
    simp [generate_word_alignment]
  · intro text t ht h0
    have hte : t.isEmpty = false := by
      cases t with
      | nil => exact absurd rfl ht
      | cons a l => rfl
    have hchar : ∀ a ∈ generate_character_alignment text t,
        a.start_ms = 0 ∧ a.duration_ms = 0 := by
      intro a ha
      simp only [generate_character_alignment, hte, Bool.false_eq_true, if_false,
        h0, List.mem_map] at ha
      obtain ⟨i, _, rfl⟩ := ha
      constructor
      · simp
      · simp
    refine ⟨hchar, ?_, ?_⟩
    · rw [generate_word_alignment_total_zero text t hte h0]
      simp only [List.map_map]
      have hcomp : (WordAlign.word ∘ fun w =>
          ({ word := w, start_ms := 0, duration_ms := 0 } : WordAlign)) = id := rfl
      rw [hcomp, List.map_id]
    · intro a ha
      rw [generate_word_alignment_total_zero text t hte h0] at ha
      simp only [List.mem_map] at ha
      obtain ⟨w, _, rfl⟩ := ha
      exact ⟨rfl, rfl⟩

/-- Witness for C7: the instance text = "a b" with the single silent timing
record (label "", 0, 0) satisfies the hypotheses, and the word alignment has
one record per token. -/
theorem claim_C7_witness :
    ([{ label := [], start_ms := 0, end_ms := 0 }] : List Timing) ≠ []
    ∧ totalDuration [{ label := [], start_ms := 0, end_ms := 0 }] = 0
    ∧ (generate_word_alignment (strToL "a b")
          [{ label := [], start_ms := 0, end_ms := 0 }]).map WordAlign.word
        = splitWords (strToL "a b") :=
  ⟨List.cons_ne_nil _ _, rfl,
   (claim_C7_thm.2.2.2 (strToL "a b") [{ label := [], start_ms := 0, end_ms := 0 }]
      (List.cons_ne_nil _ _) rfl).2.1⟩

/-! ## Claim C1 -/

set_option maxRecDepth 400000 in
/-- Counterexample for C1: a synthesis pass over the non-empty buffer
"Hello." whose backend call fails (returns none) emits exactly one outbound
message, and it is not an error message — the pass falls back to mock audio
and reports success, so the claimed error message is never sent. -/
theorem claim_C1_counterexample :
    (process_text_buffer (fun _ => none) (fun _ => []) true
        (add_text_chunk (connect [] "s") "s" (strToL "Hello.")) "s").snd.countP
      isErrorMsg = 0
    ∧ (process_text_buffer (fun _ => none) (fun _ => []) true
        (add_text_chunk (connect [] "s") "s" (strToL "Hello.")) "s").snd.length
      = 1 := by
  constructor
  · decide
  · decide

set_option maxRecDepth 400000 in
set_option maxHeartbeats 2000000 in
/-- C1 (amended): when the backend call fails during a pass over a buffer
that is non-empty after stripping (and whose cleaned text is non-empty), the
handler emits exactly one outbound message, a success message built from the
mock fallback — zero error messages are produced — the buffer is cleared and
the session's active flag is unchanged. -/
theorem claim_C1_thm
    (bc : List Char → Option (List ℚ × List Timing)) (ma : List Char → List ℚ)
    (reg : Registry) (sid : String)
    (h1 : bc (clean_text (get_text_buffer reg sid)) = none)
    (h2 : (pyStrip (get_text_buffer reg sid)).isEmpty = false)
    (h3 : (pyStrip (clean_text (get_text_buffer reg sid))).isEmpty = false) :
    (∃ r, (process_text_buffer bc ma true reg sid).snd = [OutMsg.success r])
    ∧ (process_text_buffer bc ma true reg sid).snd.countP isErrorMsg = 0
    ∧ get_text_buffer (process_text_buffer bc ma true reg sid).fst sid = []
    ∧ (lookupSession (process_text_buffer bc ma true reg sid).fst sid).map
        SessionData.is_active
      = (lookupSession reg sid).map SessionData.is_active := by
  unfold process_text_buffer
  rw [h2, if_neg Bool.false_ne_true]
  unfold generate_audio_with_alignment
  rw [Bool.not_true, if_neg Bool.false_ne_true, h3, if_neg Bool.false_ne_true]
  unfold generate_audio_with_phoneme_timings
  rw [h1]
  exact ⟨⟨_, rfl⟩, rfl, get_text_buffer_clear reg sid,
    clear_preserves_is_active reg sid⟩

set_option maxRecDepth 400000 in
set_option maxHeartbeats 4000000 in
/-- Witness for C1: the session "w" with buffer "Hi." and an always-failing
backend satisfies the hypotheses, and the pass emits one success message. -/
theorem claim_C1_witness :
    (pyStrip (get_text_buffer (add_text_chunk (connect [] "w") "w" (strToL "Hi."))
        "w")).isEmpty = false
    ∧ (pyStrip (clean_text (get_text_buffer
        (add_text_chunk (connect [] "w") "w" (strToL "Hi.")) "w"))).isEmpty = false
    ∧ (∃ r, (process_text_buffer (fun _ => none) (fun _ => []) true
          (add_text_chunk (connect [] "w") "w" (strToL "Hi.")) "w").snd
        = [OutMsg.success r]) :=
  ⟨by decide, by decide,
   (claim_C1_thm (fun _ => none) (fun _ => [])
      (add_text_chunk (connect [] "w") "w" (strToL "Hi.")) "w"
      rfl (by decide) (by decide)).1⟩

/-! ## Claim C9 -/

set_option maxRecDepth 400000 in
set_option maxHeartbeats 4000000 in
/-- C9: after connecting session "s", the init marker (a single space) and
then the chunk "Hello Dr. Smith." produce exactly one outbound message — a
success whose processed_text and full_text both equal "Hello Dr. Smith." —
whatever the backend responds (the mock fallback covers failure); after the
pass the session buffer is cleared while the transcript is retained. -/
theorem claim_C9_thm (bc : List Char → Option (List ℚ × List Timing))
    (ma : List Char → List ℚ) :
    (run_messages bc ma (connect [] "s") "s"
        [InMsg.text (strToL " "), InMsg.text (strToL "Hello Dr. Smith.")]).snd.map
        outProcessed = [some (strToL "Hello Dr. Smith.")]
    ∧ (run_messages bc ma (connect [] "s") "s"
        [InMsg.text (strToL " "), InMsg.text (strToL "Hello Dr. Smith.")]).snd.map
        outFull = [some (strToL "Hello Dr. Smith.")]
    ∧ (run_messages bc ma (connect [] "s") "s"
        [InMsg.text (strToL " "), InMsg.text (strToL "Hello Dr. Smith.")]).snd.countP
        isErrorMsg = 0
    ∧ get_text_buffer (run_messages bc ma (connect [] "s") "s"
        [InMsg.text (strToL " "), InMsg.text (strToL "Hello Dr. Smith.")]).fst
        "s" = []
    ∧ (lookupSession (run_messages bc ma (connect [] "s") "s"
        [InMsg.text (strToL " "), InMsg.text (strToL "Hello Dr. Smith.")]).fst
        "s").map SessionData.full_text = some (strToL "Hello Dr. Smith.") := by
  have n1 : (strToL "Hello Dr. Smith." = strToL " ") = False :=
    eq_false (by decide)
  have n2 : (strToL "Hello Dr. Smith." = ([] : List Char)) = False :=
    eq_false (by decide)
  have e1 : add_text_chunk (initialize_session (connect [] "s") "s") "s"
      (strToL "Hello Dr. Smith.")
      = [("s", { text_buffer := strToL "Hello Dr. Smith.",
                 full_text := strToL "Hello Dr. Smith.", is_active := true })] := by
    decide
  have e2 : get_text_buffer
      [("s", { text_buffer := strToL "Hello Dr. Smith.",
               full_text := strToL "Hello Dr. Smith.", is_active := true })] "s"
      = strToL "Hello Dr. Smith." := by decide
  have e3 : should_process_text (strToL "Hello Dr. Smith.") = true := by decide
  have e4 : clean_text (strToL "Hello Dr. Smith.") = strToL "Hello Dr. Smith." := by
    decide
  have e5 : (pyStrip (strToL "Hello Dr. Smith.")).isEmpty = false := by decide
  have egen : generate_audio_with_alignment bc ma true (strToL "Hello Dr. Smith.")
      = some {
          audio_pcm := audioToPcm16 (generate_audio_with_phoneme_timings bc ma
            (strToL "Hello Dr. Smith.")).fst,
          original_text := strToL "Hello Dr. Smith.",
          processed_text := strToL "Hello Dr. Smith.",
          alignment := {
            chars := strToL "Hello Dr. Smith.",
            char_start_times_ms :=
              (generate_character_alignment (strToL "Hello Dr. Smith.")
                (generate_audio_with_phoneme_timings bc ma
                  (strToL "Hello Dr. Smith.")).snd).map (fun a => truncQ a.start_ms),
            char_durations_ms :=
              (generate_character_alignment (strToL "Hello Dr. Smith.")
                (generate_audio_with_phoneme_timings bc ma
                  (strToL "Hello Dr. Smith.")).snd).map
                (fun a => truncQ a.duration_ms) },
          word_alignment := {
            words :=
              (generate_word_alignment (strToL "Hello Dr. Smith.")
                (generate_audio_with_phoneme_timings bc ma
                  (strToL "Hello Dr. Smith.")).snd).map WordAlign.word,
            word_start_times_ms :=
              (generate_word_alignment (strToL "Hello Dr. Smith.")
                (generate_audio_with_phoneme_timings bc ma
                  (strToL "Hello Dr. Smith.")).snd).map (fun a => truncQ a.start_ms),
            word_durations_ms :=
              (generate_word_alignment (strToL "Hello Dr. Smith.")
                (generate_audio_with_phoneme_timings bc ma
                  (strToL "Hello Dr. Smith.")).snd).map
                (fun a => truncQ a.duration_ms) },
          full_text := strToL "Hello Dr. Smith.",
          current_chunk_text := none } := by
    unfold generate_audio_with_alignment
    rw [e4, Bool.not_true, if_neg Bool.false_ne_true, e5, if_neg Bool.false_ne_true]
  have e6 : lookupSession
      [("s", { text_buffer := strToL "Hello Dr. Smith.",
               full_text := strToL "Hello Dr. Smith.", is_active := true })] "s"
      = some { text_buffer := strToL "Hello Dr. Smith.",
               full_text := strToL "Hello Dr. Smith.", is_active := true } := by decide
  have e7 : clear_text_buffer
      [("s", { text_buffer := strToL "Hello Dr. Smith.",
               full_text := strToL "Hello Dr. Smith.", is_active := true })] "s"
      = [("s", { text_buffer := [],
                 full_text := strToL "Hello Dr. Smith.", is_active := true })] := by
    decide
  have e8 : get_text_buffer
      [("s", { text_buffer := [],
               full_text := strToL "Hello Dr. Smith.", is_active := true })] "s"
      = [] := by decide
  have e9 : lookupSession
      [("s", { text_buffer := [],
               full_text := strToL "Hello Dr. Smith.", is_active := true })] "s"
      = some { text_buffer := [],
               full_text := strToL "Hello Dr. Smith.", is_active := true } := by decide
  have h1 : handle_message bc ma (connect [] "s") "s" (InMsg.text (strToL " "))
      = (initialize_session (connect [] "s") "s", []) := by
    simp only [handle_message, eq_self_iff_true, if_true]
  have h2 : handle_message bc ma (initialize_session (connect [] "s") "s") "s"
      (InMsg.text (strToL "Hello Dr. Smith."))
      = process_text_buffer bc ma true
          [("s", { text_buffer := strToL "Hello Dr. Smith.",
                   full_text := strToL "Hello Dr. Smith.", is_active := true })]
          "s" := by
    simp only [handle_message, n1, n2, e1, e2, e3, eq_self_iff_true, if_true,
      if_false]
  have h3 : process_text_buffer bc ma true
      [("s", { text_buffer := strToL "Hello Dr. Smith.",
               full_text := strToL "Hello Dr. Smith.", is_active := true })] "s"
      = ([("s", { text_buffer := [],
                  full_text := strToL "Hello Dr. Smith.", is_active := true })],
         [OutMsg.success {
            audio_pcm := audioToPcm16 (generate_audio_with_phoneme_timings bc ma
              (strToL "Hello Dr. Smith.")).fst,
            original_text := strToL "Hello Dr. Smith.",
            processed_text := strToL "Hello Dr. Smith.",
            alignment := {
              chars := strToL "Hello Dr. Smith.",
              char_start_times_ms :=
                (generate_character_alignment (strToL "Hello Dr. Smith.")
                  (generate_audio_with_phoneme_timings bc ma
                    (strToL "Hello Dr. Smith.")).snd).map
                  (fun a => truncQ a.start_ms),
              char_durations_ms :=
                (generate_character_alignment (strToL "Hello Dr. Smith.")
                  (generate_audio_with_phoneme_timings bc ma
                    (strToL "Hello Dr. Smith.")).snd).map
                  (fun a => truncQ a.duration_ms) },
            word_alignment := {
              words :=
                (generate_word_alignment (strToL "Hello Dr. Smith.")
                  (generate_audio_with_phoneme_timings bc ma
                    (strToL "Hello Dr. Smith.")).snd).map WordAlign.word,
              word_start_times_ms :=
                (generate_word_alignment (strToL "Hello Dr. Smith.")
                  (generate_audio_with_phoneme_timings bc ma
                    (strToL "Hello Dr. Smith.")).snd).map
                  (fun a => truncQ a.start_ms),
              word_durations_ms :=
                (generate_word_alignment (strToL "Hello Dr. Smith.")
                  (generate_audio_with_phoneme_timings bc ma
                    (strToL "Hello Dr. Smith.")).snd).map
                  (fun a => truncQ a.duration_ms) },
            full_text := strToL "Hello Dr. Smith.",
            current_chunk_text := some (strToL "Hello Dr. Smith.") }]) := by
    unfold process_text_buffer
    rw [e2, e5, if_neg Bool.false_ne_true, egen]
    rfl
  simp only [run_messages, h1, h2, h3, List.nil_append, List.append_nil]
  exact ⟨rfl, rfl, rfl, rfl, rfl⟩

/-! ## Claim C4 -/

theorem splitWordsAux_mem_ne_nil :
    ∀ (l acc w : List Char), w ∈ splitWordsAux l acc → w ≠ [] := by
  intro l
  induction l with
  | nil =>
    intro acc w hw
    unfold splitWordsAux at hw
    by_cases ha : acc.isEmpty = true
    · rw [if_pos ha] at hw
      simp at hw
    · rw [if_neg ha] at hw
      simp only [List.mem_singleton] at hw
      subst hw
      intro hr
      rw [List.reverse_eq_nil_iff] at hr
      rw [hr] at ha
      exact ha rfl
  | cons c rest ih =>
    intro acc w hw
    unfold splitWordsAux at hw
    by_cases hc : isPySpace c = true
    · rw [if_pos hc] at hw
      by_cases ha : acc.isEmpty = true
      · rw [if_pos ha] at hw
        exact ih [] w hw
      · rw [if_neg ha] at hw
        rcases List.mem_cons.mp hw with h | h
        · subst h
          intro hr
          rw [List.reverse_eq_nil_iff] at hr
          rw [hr] at ha
          exact ha rfl
        · exact ih [] w h
    · rw [if_neg hc] at hw
      exact ih (c :: acc) w hw

theorem splitWords_mem_ne_nil (text w : List Char) (h : w ∈ splitWords text) :
    w ≠ [] :=
  splitWordsAux_mem_ne_nil text [] w h

theorem sum_lengths_pos (ws : List (List Char)) (hne : ws ≠ [])
    (hw : ∀ w ∈ ws, w ≠ []) : 0 < (ws.map List.length).sum := by
  cases ws with
  | nil => exact absurd rfl hne
  | cons a t =>
    have ha : 0 < a.length := List.length_pos.mpr (hw a (List.mem_cons_self a t))
    simp only [List.map_cons, List.sum_cons]
    omega

theorem sum_map_constQ {α : Type} (l : List α) (c : ℚ) :
    (l.map (fun _ => c)).sum = l.length * c := by
  induction l with
  | nil => simp
  | cons a t ih =>
    simp only [List.map_cons, List.sum_cons, List.length_cons, ih]
    push_cast
    ring

theorem wordAlignGo_sum (total tc : ℚ) :
    ∀ (ws : List (List Char)) (cur : ℚ),
      ((wordAlignGo total tc cur ws).map WordAlign.duration_ms).sum
        = (ws.map (fun w =>
            if 0 < tc then ((w.length : ℚ) / tc) * total else 0)).sum := by
  intro ws
  induction ws with
  | nil => intro cur; rfl
  | cons w rest ih =>
    intro cur
    simp only [wordAlignGo, List.map_cons, List.sum_cons, ih]

theorem wordAlignGo_dur_nonneg (total tc : ℚ) (h0 : 0 ≤ total) (w : List Char) :
    0 ≤ (if 0 < tc then ((w.length : ℚ) / tc) * total else 0) := by
  split
  · rename_i htc
    exact mul_nonneg (div_nonneg (Nat.cast_nonneg _) (le_of_lt htc)) h0
  · exact le_refl 0

theorem wordAlignGo_start_ge (total tc : ℚ) (h0 : 0 ≤ total) :
    ∀ (ws : List (List Char)) (cur : ℚ),
      ∀ a ∈ wordAlignGo total tc cur ws, cur ≤ a.start_ms := by
  intro ws
  induction ws with
  | nil => intro cur a ha; simp [wordAlignGo] at ha
  | cons w rest ih =>
    intro cur a ha
    rcases List.mem_cons.mp ha with h | h
    · subst h; exact le_refl _
    · have := ih _ a h
      have hd := wordAlignGo_dur_nonneg total tc h0 w
      linarith

theorem wordAlignGo_pairwise (total tc : ℚ) (h0 : 0 ≤ total) :
    ∀ (ws : List (List Char)) (cur : ℚ),
      ((wordAlignGo total tc cur ws).map WordAlign.start_ms).Pairwise (· ≤ ·) := by
  intro ws
  induction ws with
  | nil => intro cur; simp [wordAlignGo]
  | cons w rest ih =>
    intro cur
    simp only [wordAlignGo, List.map_cons, List.pairwise_cons]
    constructor
    · intro b hb
      obtain ⟨a, ha, rfl⟩ := List.mem_map.mp hb
      have h1 := wordAlignGo_start_ge total tc h0 rest _ a ha
      have hd := wordAlignGo_dur_nonneg total tc h0 w
      linarith
    · exact ih _

theorem generate_word_alignment_eq (text : List Char) (timings : List Timing)
    (hte : timings.isEmpty = false) (hwe : (splitWords text).isEmpty = false) :
    generate_word_alignment text timings
      = wordAlignGo (totalDuration timings)
          ((((splitWords text).map List.length).sum : ℕ) : ℚ) 0 (splitWords text) := by
  simp only [generate_word_alignment, hte, hwe, Bool.or_self, Bool.false_or,
    Bool.false_eq_true, if_false]

/-- Counterexample for C4: the non-empty (whitespace-only) text " " with the
valid one-record timing sequence (label "a", 0 ms, 1000 ms) yields an empty
word alignment whose durations sum to 0 while the total duration is 1000 ms —
the claimed sum property fails for this non-empty text. -/
theorem claim_C4_counterexample :
    ((generate_word_alignment (strToL " ")
        [{ label := strToL "a", start_ms := 0, end_ms := 1000 }]).map
      WordAlign.duration_ms).sum = 0
    ∧ totalDuration [{ label := strToL "a", start_ms := 0, end_ms := 1000 }]
        = 1000 := by
  constructor
  · rfl
  · rfl

/-- C4 (amended): for every text containing at least one non-whitespace
character (equivalently, whose token list is non-empty) and every non-empty
timing sequence with non-negative total duration, the character and word
alignments each have durations summing exactly to the total duration, and
both start-time sequences are non-decreasing. -/
theorem claim_C4_thm (text : List Char) (timings : List Timing)
    (hw : splitWords text ≠ [])
    (ht : timings ≠ [])
    (h0 : 0 ≤ totalDuration timings) :
    ((generate_character_alignment text timings).map CharAlign.duration_ms).sum
        = totalDuration timings
    ∧ ((generate_character_alignment text timings).map CharAlign.start_ms).Pairwise
        (· ≤ ·)
    ∧ ((generate_word_alignment text timings).map WordAlign.duration_ms).sum
        = totalDuration timings
    ∧ ((generate_word_alignment text timings).map WordAlign.start_ms).Pairwise
        (· ≤ ·) := by
  have hte : timings.isEmpty = false := by
    cases timings with
    | nil => exact absurd rfl ht
    | cons a l => rfl
  have htext : text ≠ [] := by
    intro h
    rw [h] at hw
    exact hw rfl
  have hn : 0 < text.length := List.length_pos.mpr htext
  have hnQ : ((text.length : ℚ)) ≠ 0 := by
    exact_mod_cast Nat.pos_iff_ne_zero.mp hn
  have hwe : (splitWords text).isEmpty = false := by
    cases hsw : splitWords text with
    | nil => exact absurd hsw hw
    | cons a l => rfl
  have hchar : generate_character_alignment text timings
      = (List.range text.length).map
          (fun i => { start_ms := (i : ℚ) * (totalDuration timings / text.length),
                      duration_ms := totalDuration timings / text.length }) := by
    unfold generate_character_alignment
    rw [hte, if_neg Bool.false_ne_true, if_pos hn]
  have hdnn : 0 ≤ totalDuration timings / (text.length : ℚ) :=
    div_nonneg h0 (Nat.cast_nonneg _)
  refine ⟨?_, ?_, ?_, ?_⟩
  · rw [hchar, List.map_map]
    have hcomp : (CharAlign.duration_ms ∘ fun i : ℕ =>
        ({ start_ms := (i : ℚ) * (totalDuration timings / text.length),
           duration_ms := totalDuration timings / text.length } : CharAlign))
        = fun _ => totalDuration timings / (text.length : ℚ) := rfl
    rw [hcomp, sum_map_constQ, List.length_range, mul_comm,
      div_mul_cancel₀ _ hnQ]
  · rw [hchar, List.map_map]
    have hcomp : (CharAlign.start_ms ∘ fun i : ℕ =>
        ({ start_ms := (i : ℚ) * (totalDuration timings / text.length),
           duration_ms := totalDuration timings / text.length } : CharAlign))
        = fun i : ℕ => (i : ℚ) * (totalDuration timings / text.length) := rfl
    rw [hcomp]
    refine (List.pairwise_lt_range text.length).map _ ?_
    intro a b hab
    exact mul_le_mul_of_nonneg_right (by exact_mod_cast le_of_lt hab) hdnn
  · rw [generate_word_alignment_eq text timings hte hwe, wordAlignGo_sum]
    have htc : 0 < (((splitWords text).map List.length).sum : ℕ) :=
      sum_lengths_pos (splitWords text) hw (splitWords_mem_ne_nil text)
    have htcQ : 0 < ((((splitWords text).map List.length).sum : ℕ) : ℚ) := by
      exact_mod_cast htc
    simp only [if_pos htcQ]
    have hfun : (fun w : List Char =>
        ((w.length : ℚ) / ((((splitWords text).map List.length).sum : ℕ) : ℚ))
          * totalDuration timings)
        = fun w : List Char => (w.length : ℚ)
            * (totalDuration timings / ((((splitWords text).map List.length).sum : ℕ) : ℚ)) := by
      funext w
      ring
    rw [hfun, List.sum_map_mul_right]
    have hsum : ((splitWords text).map (fun w : List Char => (w.length : ℚ))).sum
        = ((((splitWords text).map List.length).sum : ℕ) : ℚ) := by
      rw [Nat.cast_list_sum, List.map_map]
      rfl
    rw [hsum, mul_comm, div_mul_cancel₀ _ (ne_of_gt htcQ)]
  · rw [generate_word_alignment_eq text timings hte hwe]
    exact wordAlignGo_pairwise _ _ h0 _ 0

/-- Witness for C4: the text "ab c" with the single timing record
(label "x", 0 ms, 400 ms) satisfies the hypotheses, and the character
durations sum to the total duration. -/
theorem claim_C4_witness :
    splitWords (strToL "ab c") ≠ []
    ∧ ([{ label := strToL "x", start_ms := 0, end_ms := 400 }] : List Timing) ≠ []
    ∧ 0 ≤ totalDuration [{ label := strToL "x", start_ms := 0, end_ms := 400 }]
    ∧ ((generate_character_alignment (strToL "ab c")
          [{ label := strToL "x", start_ms := 0, end_ms := 400 }]).map
        CharAlign.duration_ms).sum
        = totalDuration [{ label := strToL "x", start_ms := 0, end_ms := 400 }] :=
  ⟨by decide, List.cons_ne_nil _ _,
   by
     have htd : totalDuration [{ label := strToL "x", start_ms := 0, end_ms := 400 }]
         = (400 : ℚ) := rfl
     rw [htd]
     norm_num,
   (claim_C4_thm (strToL "ab c")
      [{ label := strToL "x", start_ms := 0, end_ms := 400 }]
      (by decide) (List.cons_ne_nil _ _)
      (by
        have htd : totalDuration
            [{ label := strToL "x", start_ms := 0, end_ms := 400 }] = (400 : ℚ) := rfl
        rw [htd]
        norm_num)).1⟩

end Tts
